import Mathlib

/-!
Verification of the cache-freshness / refresh state machine of
`src/core/subdirdata.cpp` (mamba).

The C++ file is shallowly embedded: the filesystem is a record holding the
two cache artifacts (`repodata.json` and the derived `.solv` file) as
optional (content, mtime) pairs; `MSubdirData`'s data members form a state
record; each member function becomes a pure function from (inputs, state)
to (state, result), with fallible paths returned through `Except`.
JSON values are modelled by an inductive type with an nlohmann-style
compact serializer (`Json.dump`) and a strict parser (`parseChars`);
the number grammar of the parser is restricted to integers, which is
enough for every concrete document handled in this development.
-/

namespace Mamba

/-- Named characters, used instead of literals inside the scanners. -/
def dquote : Char := Char.ofNat 34

/-- The backslash character. -/
def backslashChar : Char := Char.ofNat 92

/-- Opening curly brace. -/
def lbraceChar : Char := Char.ofNat 123

/-- Closing curly brace. -/
def rbraceChar : Char := Char.ofNat 125

/-- Opening square bracket. -/
def lbrackChar : Char := Char.ofNat 91

/-- Closing square bracket. -/
def rbrackChar : Char := Char.ofNat 93

/-- JSON values, as handled by nlohmann::json in the source.  Object fields
keep their textual order, as nlohmann's `ordered_json`-like use in the cache
file requires (`_url`, `_etag`, `_mod`, `_cache_control` come first). -/
inductive Json where
  | null : Json
  | bool (b : Bool) : Json
  | num (n : Int) : Json
  | str (s : String) : Json
  | arr (elements : List Json) : Json
  | obj (fields : List (String × Json)) : Json

/-- nlohmann `json::size()`: 0 for null, 1 for primitives, length for
containers.  `load()` uses `m_mod_etag.size() != 0` as its test. -/
def Json.jsize : Json → Nat
  | .null => 0
  | .bool _ => 1
  | .num _ => 1
  | .str _ => 1
  | .arr xs => xs.length
  | .obj fs => fs.length

/-- nlohmann `json::value(key, default)` specialised to string results:
returns the value of the first field named `key` if it is a string, the
default if the key is absent, and throws (modelled by `Except.error`) when
the stored value is not a string or the json is not an object. -/
def Json.valueStrD : Json → String → String → Except Unit String
  | .obj fs, key, dflt =>
    match fs.lookup key with
    | some (.str s) => .ok s
    | some _ => .error ()
    | none => .ok dflt
  | _, _, _ => .error ()

/-- Lower-case hex digit, as emitted by nlohmann's `\u00XX` escapes. -/
def hexDigitChar (n : Nat) : Char :=
  if n < 10 then Char.ofNat (48 + n) else Char.ofNat (87 + n)

/-- Decimal digit character. -/
def digitChar (n : Nat) : Char := Char.ofNat (48 + n)

/-- nlohmann string escaping used by `dump()`: quote, backslash, the short
control escapes, `\u00XX` for remaining control characters, everything else
verbatim. -/
def escapeChar (c : Char) : List Char :=
  if c = dquote then [backslashChar, dquote]
  else if c = backslashChar then [backslashChar, backslashChar]
  else if c = Char.ofNat 8 then [backslashChar, 'b']
  else if c = Char.ofNat 12 then [backslashChar, 'f']
  else if c = Char.ofNat 10 then [backslashChar, 'n']
  else if c = Char.ofNat 13 then [backslashChar, 'r']
  else if c = Char.ofNat 9 then [backslashChar, 't']
  else if c.toNat < 32 then
    backslashChar :: 'u' :: '0' :: '0' :: hexDigitChar (c.toNat / 16) :: [hexDigitChar (c.toNat % 16)]
  else [c]

/-- Escape a whole string body. -/
def escapeChars (s : List Char) : List Char := (s.map escapeChar).flatten

/-- Decimal digits of a natural number (auxiliary, fuel-driven). -/
def natToCharsAux : Nat → Nat → List Char → List Char
  | 0, _, acc => acc
  | fuel + 1, n, acc =>
    if n < 10 then digitChar n :: acc
    else natToCharsAux fuel (n / 10) (digitChar (n % 10) :: acc)

/-- Decimal digits of a natural number. -/
def natToChars (n : Nat) : List Char := natToCharsAux (n + 1) n []

/-- Decimal representation of an integer. -/
def intToChars (n : Int) : List Char :=
  if n < 0 then '-' :: natToChars n.natAbs else natToChars n.natAbs

mutual

/-- nlohmann `json::dump()` with default arguments: the compact
serialization, no added whitespace. -/
def Json.dump : Json → List Char
  | .null => "null".data
  | .bool b => if b then "true".data else "false".data
  | .num n => intToChars n
  | .str s => dquote :: escapeChars s.data ++ [dquote]
  | .arr xs => lbrackChar :: dumpElems xs ++ [rbrackChar]
  | .obj fs => lbraceChar :: dumpFields fs ++ [rbraceChar]

/-- Comma-separated dump of array elements. -/
def dumpElems : List Json → List Char
  | [] => []
  | [x] => x.dump
  | x :: y :: ys => x.dump ++ ',' :: dumpElems (y :: ys)

/-- Comma-separated dump of object fields (`"key":value`). -/
def dumpFields : List (String × Json) → List Char
  | [] => []
  | [(k, v)] => dquote :: escapeChars k.data ++ dquote :: ':' :: v.dump
  | (k, v) :: f :: fs =>
    (dquote :: escapeChars k.data ++ dquote :: ':' :: v.dump) ++ ',' :: dumpFields (f :: fs)

end

/-- JSON whitespace. -/
def isWsChar (c : Char) : Bool :=
  c = ' ' || c = Char.ofNat 10 || c = Char.ofNat 13 || c = Char.ofNat 9

/-- Skip leading whitespace. -/
def skipWs : List Char → List Char
  | [] => []
  | c :: rest => if isWsChar c then skipWs rest else c :: rest

/-- Hex digit value. -/
def hexVal (c : Char) : Option Nat :=
  if 48 ≤ c.toNat ∧ c.toNat ≤ 57 then some (c.toNat - 48)
  else if 97 ≤ c.toNat ∧ c.toNat ≤ 102 then some (c.toNat - 87)
  else if 65 ≤ c.toNat ∧ c.toNat ≤ 70 then some (c.toNat - 55)
  else none

/-- Body of a JSON string literal, after the opening quote; returns the
decoded string and the remaining input.  Fuel-driven so that the kernel can
evaluate it. -/
def pStringBody : Nat → List Char → List Char → Option (String × List Char)
  | 0, _, _ => none
  | _ + 1, [], _ => none
  | fuel + 1, c :: rest, acc =>
    if c = dquote then some (String.mk acc.reverse, rest)
    else if c = backslashChar then
      match rest with
      | [] => none
      | e :: rest2 =>
        if e = dquote then pStringBody fuel rest2 (dquote :: acc)
        else if e = backslashChar then pStringBody fuel rest2 (backslashChar :: acc)
        else if e = '/' then pStringBody fuel rest2 ('/' :: acc)
        else if e = 'b' then pStringBody fuel rest2 (Char.ofNat 8 :: acc)
        else if e = 'f' then pStringBody fuel rest2 (Char.ofNat 12 :: acc)
        else if e = 'n' then pStringBody fuel rest2 (Char.ofNat 10 :: acc)
        else if e = 'r' then pStringBody fuel rest2 (Char.ofNat 13 :: acc)
        else if e = 't' then pStringBody fuel rest2 (Char.ofNat 9 :: acc)
        else if e = 'u' then
          match rest2 with
          | h1 :: h2 :: h3 :: h4 :: rest3 =>
            match hexVal h1, hexVal h2, hexVal h3, hexVal h4 with
            | some a, some b, some c3, some d =>
              pStringBody fuel rest3 (Char.ofNat (((a * 16 + b) * 16 + c3) * 16 + d) :: acc)
            | _, _, _, _ => none
          | _ => none
        else none
    else if c.toNat < 32 then none
    else pStringBody fuel rest (c :: acc)

/-- Longest prefix of decimal digits, with the remaining input. -/
def takeDigits : List Char → List Char × List Char
  | [] => ([], [])
  | c :: rest =>
    if c.isDigit then
      let (ds, r) := takeDigits rest
      (c :: ds, r)
    else ([], c :: rest)

/-- Numeric value of a digit string. -/
def digitsToNat (ds : List Char) : Nat :=
  ds.foldl (fun acc c => acc * 10 + (c.toNat - 48)) 0

/-- Integer literal (the model's number grammar excludes fractions and
exponents; inputs using them fail to parse). -/
def pNumber : List Char → Option (Json × List Char)
  | s =>
    match s with
    | '-' :: rest =>
      match takeDigits rest with
      | ([], _) => none
      | (ds, r) =>
        match r with
        | c :: _ => if c = '.' ∨ c = 'e' ∨ c = 'E' then none else some (.num (-(digitsToNat ds : Int)), r)
        | [] => some (.num (-(digitsToNat ds : Int)), r)
    | _ =>
      match takeDigits s with
      | ([], _) => none
      | (ds, r) =>
        match r with
        | c :: _ => if c = '.' ∨ c = 'e' ∨ c = 'E' then none else some (.num (digitsToNat ds), r)
        | [] => some (.num (digitsToNat ds), r)

mutual

/-- One JSON value, returning the remaining input. -/
def pVal : Nat → List Char → Option (Json × List Char)
  | 0, _ => none
  | fuel + 1, s =>
    match skipWs s with
    | [] => none
    | c :: rest =>
      if c = lbraceChar then
        match skipWs rest with
        | [] => none
        | d :: rest2 =>
          if d = rbraceChar then some (.obj [], rest2) else pMembers fuel (d :: rest2)
      else if c = lbrackChar then
        match skipWs rest with
        | [] => none
        | d :: rest2 =>
          if d = rbrackChar then some (.arr [], rest2) else pElems fuel (d :: rest2)
      else if c = dquote then
        match pStringBody (rest.length + 1) rest [] with
        | some (str, r) => some (.str str, r)
        | none => none
      else if c = 't' then
        match rest with
        | 'r' :: 'u' :: 'e' :: r => some (.bool true, r)
        | _ => none
      else if c = 'f' then
        match rest with
        | 'a' :: 'l' :: 's' :: 'e' :: r => some (.bool false, r)
        | _ => none
      else if c = 'n' then
        match rest with
        | 'u' :: 'l' :: 'l' :: r => some (.null, r)
        | _ => none
      else pNumber (c :: rest)

/-- Non-empty member list of an object, starting at the first key and
consuming the closing brace. -/
def pMembers : Nat → List Char → Option (Json × List Char)
  | 0, _ => none
  | fuel + 1, s =>
    match skipWs s with
    | [] => none
    | c :: rest =>
      if c = dquote then
        match pStringBody (rest.length + 1) rest [] with
        | none => none
        | some (k, r1) =>
          match skipWs r1 with
          | [] => none
          | d :: r2 =>
            if d = ':' then
              match pVal fuel r2 with
              | none => none
              | some (v, r3) =>
                match skipWs r3 with
                | [] => none
                | e :: r4 =>
                  if e = ',' then
                    match pMembers fuel r4 with
                    | some (.obj fs, r5) => some (.obj ((k, v) :: fs), r5)
                    | _ => none
                  else if e = rbraceChar then some (.obj [(k, v)], r4)
                  else none
            else none
      else none

/-- Non-empty element list of an array, consuming the closing bracket. -/
def pElems : Nat → List Char → Option (Json × List Char)
  | 0, _ => none
  | fuel + 1, s =>
    match pVal fuel s with
    | none => none
    | some (v, r1) =>
      match skipWs r1 with
      | [] => none
      | e :: r2 =>
        if e = ',' then
          match pElems fuel r2 with
          | some (.arr vs, r3) => some (.arr (v :: vs), r3)
          | _ => none
        else if e = rbrackChar then some (.arr [v], r2)
        else none

end

/-- Strict, whole-input JSON parse (`nlohmann::json::parse`): trailing
non-whitespace input is an error. -/
def parseChars (s : List Char) : Option Json :=
  match pVal (2 * s.length + 4) s with
  | some (j, rest) => if skipWs rest = [] then some j else none
  | none => none

/-- The `extract_subjson` lambda of `MSubdirData::read_mod_and_etag`
(subdirdata.cpp:364-394), transcribed over a character stream.  `escaped`
is set by a backslash, cleared only by the quote following it; unescaped
quotes are counted; on the 16th (4 keys x 4 quotes) the accumulated text
plus a synthetic quote-brace is returned; end of stream yields the empty
string. -/
def extractSubjson : List Char → Bool → Nat → List Char → List Char
  | [], _, _, _ => []
  | c :: rest, escaped, i, acc =>
    if c = dquote then
      match escaped with
      | false =>
        if i + 1 = 16 then acc ++ [dquote, rbraceChar]
        else extractSubjson rest false (i + 1) (acc ++ [c])
      | true =>
        if i = 16 then acc ++ [dquote, rbraceChar]
        else extractSubjson rest false i (acc ++ [c])
    else if c = backslashChar then extractSubjson rest true i (acc ++ [c])
    else extractSubjson rest escaped i (acc ++ [c])

/-- Final unescaped-quote count of the same automaton, run to end of
stream; used to state "end-of-stream is reached before 16 quotes". -/
def scanQuotes : List Char → Bool → Nat → Nat
  | [], _, i => i
  | c :: rest, escaped, i =>
    if c = dquote then
      if !escaped then scanQuotes rest escaped (i + 1) else scanQuotes rest false i
    else if c = backslashChar then scanQuotes rest true i
    else scanQuotes rest escaped i

/-- `MSubdirData::read_mod_and_etag` (subdirdata.cpp:356-409) as a function
of the cache file's contents: extract the leading sub-json, parse it, and
return the empty json (null) when parsing fails. -/
def read_mod_and_etag (content : List Char) : Json :=
  match parseChars (extractSubjson content false 0 []) with
  | some j => j
  | none => Json.null

/-- `startsWithL pat s`: `pat` is a prefix of `s`. -/
def startsWithL : List Char → List Char → Bool
  | [], _ => true
  | _ :: _, [] => false
  | p :: ps, c :: cs => p = c && startsWithL ps cs

/-- mamba's `starts_with(str, pattern)` utility (declared outside this
file; plain prefix test). -/
def starts_with (s pat : String) : Bool := startsWithL pat.data s.data

/-- mamba's `ends_with(str, pattern)` utility (declared outside this file;
plain suffix test). -/
def ends_with (s pat : String) : Bool := startsWithL pat.data.reverse s.data.reverse

/-- The literal part of the `max-age=(\d+)` regex. -/
def maxAgePat : List Char := "max-age=".data

/-- Does the input start with a decimal digit? -/
def headDigit : List Char → Bool
  | c :: _ => c.isDigit
  | [] => false

/-- Leftmost match of the regex `max-age=(\d+)` (subdirdata.cpp:348-350):
scan left to right for the literal `max-age=` followed by at least one
digit, and capture the maximal digit run (greedy `\d+`). -/
def findMaxAgeDigits : List Char → Option (List Char)
  | [] => none
  | c :: rest =>
    if startsWithL maxAgePat (c :: rest) && headDigit ((c :: rest).drop 8) then
      some (((c :: rest).drop 8).takeWhile Char.isDigit)
    else findMaxAgeDigits rest

/-- Value of `INT_MAX`, the bound above which `std::stoi` throws
`std::out_of_range`. -/
def INT_MAX : Int := 2147483647

/-- `MSubdirData::get_cache_control_max_age` (subdirdata.cpp:346-354):
no regex match returns 0; a match is converted with `std::stoi`, which
throws `std::out_of_range` (modelled by `Except.error`) when the captured
digits exceed `INT_MAX`. -/
def get_cache_control_max_age (val : String) : Except Unit Int :=
  match findMaxAgeDigits val.data with
  | none => .ok 0
  | some ds =>
    if (digitsToNat ds : Int) ≤ INT_MAX then .ok (digitsToNat ds) else .error ()

/-- The `max-age=` literal occurs at offset `i` followed by a digit: the
declarative description of a regex match of `max-age=(\d+)` starting at
`i`. -/
def matchAt (s : List Char) (i : Nat) : Bool :=
  startsWithL maxAgePat (s.drop i) && headDigit (s.drop (i + 8))

/-- Modelled from the spec: the global configuration (`Context::instance()`)
lives outside this file; only the two fields `load()` reads are modelled:
the TTL policy (`local_repodata_ttl`, "0 or negative" is meaningful per
spec section 4.1, hence an integer) and the offline flag. -/
structure Context where
  local_repodata_ttl : Int
  offline : Bool

/-- A file on disk: contents plus last-modification time.  Times are in
`file_time_type` ticks (nanoseconds on the target platform). -/
structure FileInfo where
  content : List Char
  mtime : Int

/-- The slice of the filesystem the component touches: the json cache file
(`m_json_fn`), the derived solv cache file (`m_solv_fn`), and whether the
json cache path can be opened for writing (`ofstream`'s success in
`finalize_transfer`). -/
structure FS where
  json : Option FileInfo
  solv : Option FileInfo
  jsonWritable : Bool

/-- The completed transfer's observable outcome (`DownloadTarget`, an
external collaborator): result code, HTTP status, response headers. -/
structure DownloadTarget where
  result : Int
  http_status : Int
  etag : String
  mod : String
  cache_control : String

/-- `MSubdirData`'s data members.  `m_temp_file` holds the staging file's
contents while owned; `m_armed` records that `create_target` built a
`DownloadTarget` (armed a refresh). -/
structure SubdirState where
  m_loaded : Bool
  m_download_complete : Bool
  m_json_cache_valid : Bool
  m_solv_cache_valid : Bool
  m_repodata_url : String
  m_name : String
  m_json_fn : String
  m_solv_fn : String
  m_mod_etag : Json
  m_temp_file : Option (List Char)
  m_armed : Bool

/-- `fs::file_time_type::duration::max()`, the sentinel
`MSubdirData::check_cache` returns when the timestamp cannot be read
(int64 nanoseconds). -/
def DURATION_MAX : Int := 9223372036854775807

/-- `MSubdirData::check_cache` (subdirdata.cpp:81-95): age of a file
relative to `now`, or the sentinel when the file is missing/unreadable. -/
def check_cache (f : Option FileInfo) (now : Int) : Int :=
  match f with
  | some fi => now - fi.mtime
  | none => DURATION_MAX

/-- `duration_cast<seconds>` on a tick count: division truncating toward
zero, 10^9 ticks per second. -/
def duration_seconds (d : Int) : Int := d.tdiv 1000000000

/-- Contents of an optional file; a missing file reads as empty (an
`ifstream` on it yields no characters). -/
def fileContent : Option FileInfo → List Char
  | some fi => fi.content
  | none => []

/-- Update a file's mtime to `now` (`utimensat` with NULL times); on a
missing file the call fails and changes nothing. -/
def touch (f : Option FileInfo) (now : Int) : Option FileInfo :=
  match f with
  | some fi => some { fi with mtime := now }
  | none => none

/-- `max_age` computation inside `load()` (subdirdata.cpp:117-127), as a
function of the TTL policy and the cache-control header string. -/
def maxAgeSeconds (ttl : Int) (header : String) : Except Unit Int :=
  if ttl > 1 then .ok ttl
  else if ttl = 1 then get_cache_control_max_age header
  else .ok 0

/-- The same computation applied to the extracted metadata object, pulling
the `_cache_control` value with an empty-string default as `load()` does. -/
def compute_max_age (ctx : Context) (mod_etag : Json) : Except Unit Int :=
  if ctx.local_repodata_ttl > 1 then .ok ctx.local_repodata_ttl
  else if ctx.local_repodata_ttl = 1 then
    match mod_etag.valueStrD "_cache_control" "" with
    | .ok el => get_cache_control_max_age el
    | .error e => .error e
  else .ok 0

/-- `MSubdirData::create_target` (subdirdata.cpp:330-344): a fresh (empty)
staging file is created and a `DownloadTarget` is armed with the current
metadata as conditional-request headers.  Progress-bar wiring is UI and
not modelled. -/
def create_target (st : SubdirState) : SubdirState :=
  { st with m_temp_file := some [], m_armed := true }

/-- `MSubdirData::load` (subdirdata.cpp:107-171).  `Except.error` models
the uncaught exception `value("_cache_control", ...)` can throw.  The
boolean is the function's return value (always `true` on normal exit). -/
def MSubdirData.load (ctx : Context) (fs : FS) (now : Int) (st : SubdirState) :
    Except Unit (SubdirState × Bool) :=
  let cache_age := check_cache fs.json now
  if cache_age ≠ DURATION_MAX ∧ starts_with st.m_repodata_url "file://" = false then
    let mod_etag := read_mod_and_etag (fileContent fs.json)
    let st1 := { st with m_mod_etag := mod_etag }
    if mod_etag.jsize ≠ 0 then
      match compute_max_age ctx mod_etag with
      | .error e => .error e
      | .ok max_age =>
        if max_age > duration_seconds cache_age ∨ ctx.offline = true then
          let st2 := { st1 with m_loaded := true, m_json_cache_valid := true }
          let solv_age := check_cache fs.solv now
          if solv_age ≠ DURATION_MAX ∧ solv_age ≤ cache_age then
            .ok ({ st2 with m_solv_cache_valid := true }, true)
          else .ok (st2, true)
        else .ok (create_target st1, true)
    else .ok (create_target st1, true)
  else
    if ctx.offline = false ∨ starts_with st.m_repodata_url "file://" = true then
      .ok (create_target st, true)
    else .ok (st, true)

/-- `MSubdirData::cache_path` (subdirdata.cpp:173-185). -/
def MSubdirData.cache_path (st : SubdirState) : Except Unit String :=
  if st.m_json_cache_valid = true ∧ st.m_solv_cache_valid = true then .ok st.m_solv_fn
  else if st.m_json_cache_valid = true then .ok st.m_json_fn
  else .error ()

/-- `MSubdirData::clear_cache` (subdirdata.cpp:437-447): removes both
cache files when present; no data member is touched. -/
def MSubdirData.clear_cache (st : SubdirState) (fs : FS) : SubdirState × FS :=
  (st, { fs with json := none, solv := none })

/-- Outcome of one libarchive read session on the staging file's bytes
(the library is an external collaborator; its behaviour on given bytes is
an oracle parameter of the model). -/
inductive ArchResult where
  | openFail
  | headerFail
  | readErr
  | decoded (out : List Char)

/-- Oracle mapping input bytes to the archive library's behaviour. -/
abbrev ArchOracle := List Char → ArchResult

/-- Abnormal terminations of `finalize_transfer` and its callees:
`exit(1)`, the unhandled-HTTP-code `runtime_error`, and the
could-not-read-archive `runtime_error` thrown by `decompress::raw`. -/
inductive Crash where
  | exit1
  | unhandled_http
  | archive_read_error

/-- `decompress::raw` (subdirdata.cpp:17-62): open failure and header
failure return `false` (the destination file stays empty — it is created
before the header read, truncated, and never written); a negative block
read throws; success yields the decoded bytes. -/
def decompress_raw (arch : ArchOracle) (input : List Char) : Except Crash (Bool × List Char) :=
  match arch input with
  | .openFail => .ok (false, [])
  | .headerFail => .ok (false, [])
  | .readErr => .error .archive_read_error
  | .decoded out => .ok (true, out)

/-- `MSubdirData::decompress` (subdirdata.cpp:317-328): run
`decompress::raw` from the staging file into a fresh temporary file and
swap the two unconditionally (on failure only a warning is logged), so the
new file's bytes replace the staging contents. -/
def MSubdirData.decompress (arch : ArchOracle) (st : SubdirState) :
    Except Crash (Bool × SubdirState) :=
  match st.m_temp_file with
  | none => .error .exit1
  | some staged =>
    match decompress_raw arch staged with
    | .error e => .error e
    | .ok (result, out) => .ok (result, { st with m_temp_file := some out })

/-- The four header fields `finalize_transfer` stores in `m_mod_etag`
(subdirdata.cpp:255-259). -/
def header_fields (url etag mod cache_control : String) : List (String × Json) :=
  [("_url", .str url), ("_etag", .str etag), ("_mod", .str mod),
   ("_cache_control", .str cache_control)]

/-- `MSubdirData::finalize_transfer` (subdirdata.cpp:197-315).  Progress
bar calls are UI and not modelled.  The post-copy `if (!temp_file)` check
cannot fire in the model (reading the staging contents always succeeds),
so that branch (remove + exit) is omitted.  The final `utimensat` and the
file write itself both set the json cache's mtime to `now`. -/
def finalize_transfer (arch : ArchOracle) (t : DownloadTarget) (fs : FS) (now : Int)
    (st : SubdirState) : Except Crash (SubdirState × FS × Bool) :=
  if t.result ≠ 0 ∨ t.http_status ≥ 400 then
    .ok ({ st with m_loaded := false }, fs, false)
  else if t.http_status = 0 ∨ t.http_status = 200 ∨ t.http_status = 304 then
    let st1 := { st with m_download_complete := true }
    if t.http_status = 304 then
      let cache_age := check_cache fs.json now
      let solv_age := check_cache fs.solv now
      let fs1 := { fs with json := touch fs.json now }
      if solv_age ≠ DURATION_MAX ∧ solv_age ≤ cache_age then
        let stOut := { st1 with m_solv_cache_valid := true, m_json_cache_valid := true, m_loaded := true, m_temp_file := (none : Option (List Char)) }
        .ok (stOut, { fs1 with solv := touch fs1.solv now }, true)
      else
        let stOut := { st1 with m_json_cache_valid := true, m_loaded := true, m_temp_file := (none : Option (List Char)) }
        .ok (stOut, fs1, true)
    else
      let st2 := { st1 with m_mod_etag := Json.obj (header_fields st.m_repodata_url t.etag t.mod t.cache_control) }
      if fs.jsonWritable = false then .error .exit1
      else
        match (if ends_with st.m_repodata_url ".bz2" = true
               then MSubdirData.decompress arch st2
               else .ok (true, st2)) with
        | .error e => .error e
        | .ok (_, st3) =>
          match st3.m_temp_file with
          | none => .error .exit1
          | some staged =>
            let spliced := st3.m_mod_etag.dump.dropLast ++ ',' :: staged.drop 1
            let stOut := { st3 with m_json_cache_valid := true, m_loaded := true, m_temp_file := (none : Option (List Char)) }
            .ok (stOut, { fs with json := some ⟨spliced, now⟩ }, true)
  else .error .unhandled_http

/-- Return flag of a finalize result, when it terminated normally. -/
def resultFlag : Except Crash (SubdirState × FS × Bool) → Option Bool
  | .ok (_, _, r) => some r
  | .error _ => none

/-- Json cache contents after a finalize result, when it terminated
normally and the file exists. -/
def resultJson : Except Crash (SubdirState × FS × Bool) → Option (List Char)
  | .ok (_, fs, _) => fs.json.map (·.content)
  | .error _ => none

/-- State after a finalize result, when it terminated normally. -/
def resultState : Except Crash (SubdirState × FS × Bool) → Option SubdirState
  | .ok (st, _, _) => some st
  | .error _ => none

/-- The synthetic document prefix up to (and including) the 16th unescaped
quote: four string-valued header fields, closing value quote last. -/
def synthHead : List Char :=
  "\x7b\"_url\":\"u\",\"_etag\":\"e\",\"_mod\":\"m\",\"_cache_control\":\"c\"".data

/-- The header object the byte scanner should recover from `synthHead`. -/
def synthHdr : Json :=
  Json.obj [("_url", .str "u"), ("_etag", .str "e"), ("_mod", .str "m"),
    ("_cache_control", .str "c")]

/-- The payload tail of the spec's synthetic ByteScanner document
(`,"other":...` with a nested object). -/
def synthTail : List Char :=
  ",\"other\":\x7b\"big\":\"payload\"\x7d\x7d".data

/-- A baseline state for concrete runs: nothing loaded, nothing staged. -/
def baseState : SubdirState where
  m_loaded := false
  m_download_complete := false
  m_json_cache_valid := false
  m_solv_cache_valid := false
  m_repodata_url := "U"
  m_name := "chan"
  m_json_fn := "repodata.json"
  m_solv_fn := "repodata.solv"
  m_mod_etag := Json.null
  m_temp_file := none
  m_armed := false

/-- A successful HTTP-200 transfer outcome with the spec example's
headers. -/
def t200 : DownloadTarget := ⟨0, 200, "E", "M", "C"⟩

/-- A writable filesystem with no cache files yet. -/
def fsW : FS := ⟨none, none, true⟩

/-- An archive oracle (its value is irrelevant for non-bz2 runs). -/
def archAny : ArchOracle := fun _ => .openFail

/-- An archive oracle whose input always fails to open. -/
def archOpenFail : ArchOracle := fun _ => .openFail

/-- An archive oracle whose input always triggers a negative block read
(corrupt data mid-stream). -/
def archReadErr : ArchOracle := fun _ => .readErr

/-- Concrete state staging the spec example's payload object. -/
def stPkg : SubdirState := { baseState with m_temp_file := some (Json.obj [("pkg", Json.num 1)]).dump }

/-- Concrete state staging the serialization of the empty JSON object. -/
def stEmptyObj : SubdirState := { baseState with m_temp_file := some (Json.obj []).dump }

/-- Sixteen quote characters: scanned successfully (16 unescaped quotes)
but the resulting synthetic document does not parse. -/
def quotes16 : List Char := List.replicate 16 dquote

/-- A state whose URL is bzip2-compressed and whose staging file holds one
(corrupt) byte. -/
def stBz : SubdirState := { baseState with m_repodata_url := "U.bz2", m_temp_file := some ['x'] }

/-- Filesystem after a finalize result, when it terminated normally. -/
def resultFS : Except Crash (SubdirState × FS × Bool) → Option FS
  | .ok (_, fs, _) => some fs
  | .error _ => none

/-- A failed transfer outcome (nonzero result code and a 5xx status). -/
def tFail : DownloadTarget := ⟨1, 500, "", "", ""⟩

/-- A not-modified transfer outcome. -/
def t304 : DownloadTarget := ⟨0, 304, "", "", ""⟩

/-- The full synthetic ByteScanner document. -/
def synthFull : List Char := synthHead ++ synthTail

/-- Configuration with TTL 5, online. -/
def ctx5 : Context := ⟨5, false⟩

/-- Filesystem holding the synthetic document as json cache and an (empty,
same-mtime) solv cache, both with mtime 0. -/
def fsBoth : FS := ⟨some ⟨synthFull, 0⟩, some ⟨[], 0⟩, true⟩

/-- Filesystem for the 304 runs: json cache holding the synthetic document
at mtime 5, solv cache at mtime 5. -/
def fs304 : FS := ⟨some ⟨synthFull, 5⟩, some ⟨[], 5⟩, true⟩

/-- The state `load ctx5 fsBoth 0 baseState` accepts the cache into. -/
def stAccepted : SubdirState := { baseState with m_mod_etag := synthHdr, m_loaded := true, m_json_cache_valid := true, m_solv_cache_valid := true }

end Mamba

namespace Mamba

section Lemmas

/-- Dropping the last element of `l ++ [x]` gives back `l`. -/
theorem dropLast_append_single (l : List Char) (x : Char) : (l ++ [x]).dropLast = l := by
  simp

/-- Field serialization distributes over append of non-empty field lists,
inserting one comma at the seam. -/
theorem dumpFields_append (a b : List (String × Json)) (ha : a ≠ []) (hb : b ≠ []) :
    dumpFields (a ++ b) = dumpFields a ++ ',' :: dumpFields b := by
  induction a with
  | nil => exact absurd rfl ha
  | cons x a ih =>
    obtain ⟨k, v⟩ := x
    cases a with
    | nil =>
      cases b with
      | nil => exact absurd rfl hb
      | cons y ys => simp [dumpFields]
    | cons z zs =>
      have h := ih (by simp)
      simp only [List.cons_append] at h ⊢
      rw [dumpFields, h, dumpFields]
      simp

/-- The header-splice identity: serializing the header object, dropping
its trailing brace, appending a comma and the payload object's bytes from
the second byte on, is exactly the serialization of the merged object
(for non-empty header and payload). -/
theorem dump_obj_splice (hdr fields : List (String × Json)) (h1 : hdr ≠ []) (h2 : fields ≠ []) :
    (Json.obj hdr).dump.dropLast ++ ',' :: (Json.obj fields).dump.drop 1
      = (Json.obj (hdr ++ fields)).dump := by
  have e1 : (Json.obj hdr).dump.dropLast = lbraceChar :: dumpFields hdr := by
    rw [Json.dump,
      show lbraceChar :: dumpFields hdr ++ [rbraceChar]
          = (lbraceChar :: dumpFields hdr) ++ [rbraceChar] from rfl,
      dropLast_append_single]
  have e2 : (Json.obj fields).dump.drop 1 = dumpFields fields ++ [rbraceChar] := by
    rw [Json.dump]; rfl
  rw [e1, e2, Json.dump, dumpFields_append hdr fields h1 h2]
  simp

/-- A false boolean is not true. -/
theorem ne_true_of_eq_false {b : Bool} (h : b = false) : ¬(b = true) := by simp [h]

/-- Shifting the match offset by one steps past the head character. -/
theorem matchAt_cons (c : Char) (rest : List Char) (i : Nat) :
    matchAt (c :: rest) (i + 1) = matchAt rest i := by
  have e1 : (c :: rest).drop (i + 1) = rest.drop i := rfl
  have e2 : (c :: rest).drop (i + 1 + 8) = rest.drop (i + 8) := by
    have h : i + 1 + 8 = (i + 8) + 1 := by omega
    rw [h]; rfl
  rw [matchAt, matchAt, e1, e2]

/-- Beyond the end of the string there is no regex match. -/
theorem matchAt_ge_length (s : List Char) (i : Nat) (h : s.length ≤ i) :
    matchAt s i = false := by
  rw [matchAt, List.drop_eq_nil_of_le h,
    show startsWithL maxAgePat [] = false from rfl]
  rfl

/-- If no position matches `max-age=(\d+)`, the scan finds nothing. -/
theorem findMaxAgeDigits_none (s : List Char) (h : ∀ i, matchAt s i = false) :
    findMaxAgeDigits s = none := by
  induction s with
  | nil => rfl
  | cons c rest ih =>
    have hc : (startsWithL maxAgePat (c :: rest) && headDigit ((c :: rest).drop 8)) = false :=
      h 0
    rw [findMaxAgeDigits, if_neg (ne_true_of_eq_false hc)]
    exact ih fun i => by rw [← matchAt_cons c rest i]; exact h (i + 1)

/-- The scan returns the greedy digit capture of the leftmost
`max-age=(\d+)` match. -/
theorem findMaxAgeDigits_first (s : List Char) (i : Nat) (hm : matchAt s i = true)
    (hfirst : ∀ j, j < i → matchAt s j = false) :
    findMaxAgeDigits s = some ((s.drop (i + 8)).takeWhile Char.isDigit) := by
  induction s generalizing i with
  | nil =>
    rw [matchAt, List.drop_nil, show startsWithL maxAgePat [] = false from rfl] at hm
    exact absurd hm (by simp)
  | cons c rest ih =>
    cases i with
    | zero =>
      have hcond : (startsWithL maxAgePat (c :: rest) && headDigit ((c :: rest).drop 8))
          = true := hm
      rw [findMaxAgeDigits, if_pos hcond]
    | succ j =>
      have h0 : (startsWithL maxAgePat (c :: rest) && headDigit ((c :: rest).drop 8))
          = false := hfirst 0 (Nat.succ_pos j)
      rw [findMaxAgeDigits, if_neg (ne_true_of_eq_false h0)]
      have hm2 : matchAt rest j = true := by rw [← matchAt_cons c rest j]; exact hm
      have hf2 : ∀ k, k < j → matchAt rest k = false := fun k hk => by
        rw [← matchAt_cons c rest k]; exact hfirst (k + 1) (by omega)
      rw [ih j hm2 hf2]
      have e2 : (c :: rest).drop (j + 1 + 8) = rest.drop (j + 8) := by
        have h : j + 1 + 8 = (j + 8) + 1 := by omega
        rw [h]; rfl
      rw [e2]

/-- The quote count never decreases along the scan. -/
theorem scanQuotes_le (s : List Char) (esc : Bool) (i : Nat) : i ≤ scanQuotes s esc i := by
  induction s generalizing esc i with
  | nil => simp [scanQuotes]
  | cons c rest ih =>
    rw [scanQuotes]
    split_ifs with h1 h2 h3
    · exact Nat.le_trans (Nat.le_succ i) (ih _ _)
    · exact ih _ _
    · exact ih _ _
    · exact ih _ _

/-- If the whole stream holds fewer than 16 unescaped quotes, the
extraction loop runs to end of stream and returns the empty string. -/
theorem extract_eq_nil (s : List Char) (esc : Bool) (i : Nat) (acc : List Char)
    (h : scanQuotes s esc i < 16) : extractSubjson s esc i acc = [] := by
  induction s generalizing esc i acc with
  | nil => rfl
  | cons c rest ih =>
    by_cases h1 : c = dquote
    · subst h1
      cases esc with
      | false =>
        rw [scanQuotes, if_pos rfl, if_pos (show (!false) = true from rfl)] at h
        have hle := scanQuotes_le rest false (i + 1)
        rw [extractSubjson, if_pos rfl, if_neg (by omega)]
        exact ih _ _ _ h
      | true =>
        rw [scanQuotes, if_pos rfl, if_neg (by simp)] at h
        have hle := scanQuotes_le rest false i
        rw [extractSubjson, if_pos rfl, if_neg (by omega)]
        exact ih _ _ _ h
    · by_cases h2 : c = backslashChar
      · subst h2
        rw [scanQuotes, if_neg (by decide), if_pos rfl] at h
        cases esc <;>
          · rw [extractSubjson, if_neg (by decide), if_pos rfl]
            exact ih _ _ _ h
      · rw [scanQuotes, if_neg h1, if_neg h2] at h
        cases esc <;>
          · rw [extractSubjson, if_neg h1, if_neg h2]
            exact ih _ _ _ h

/-- `MSubdirData::decompress` only swaps the staging file; every other
data member is untouched. -/
theorem decompress_preserves (arch : ArchOracle) (st : SubdirState) (b : Bool)
    (st2 : SubdirState) (h : MSubdirData.decompress arch st = .ok (b, st2)) :
    st2.m_solv_cache_valid = st.m_solv_cache_valid ∧ st2.m_mod_etag = st.m_mod_etag ∧
    st2.m_json_cache_valid = st.m_json_cache_valid ∧ st2.m_loaded = st.m_loaded := by
  simp only [MSubdirData.decompress] at h
  split at h
  · exact absurd h (by simp)
  · simp only [decompress_raw] at h
    split at h
    · exact Except.noConfusion h
    · simp only [Except.ok.injEq, Prod.mk.injEq] at h
      obtain ⟨-, hst⟩ := h
      subst hst
      simp

end Lemmas

/-- C1 (amended).  Splice correctness: for every `HeaderMetadata`
(url/etag/mod/cache-control) and every staged payload that is the
serialization of a JSON object with at least one key, a status-200/0
`finalize_transfer` (non-bz2 URL, writable cache path) returns success and
writes a final json cache file that is exactly the serialization of the
single well-formed JSON object whose first four keys are `_url`, `_etag`,
`_mod`, `_cache_control` with the transfer's values, followed by the
payload's own top-level keys — produced by dropping the header dump's
trailing brace, appending a comma, and copying the staged bytes from the
second byte on.  (Amendment: the original claim quantified over every
payload object; the empty object is a counterexample, settled separately.) -/
theorem C1_splice_correctness
    (arch : ArchOracle) (t : DownloadTarget) (fs : FS) (now : Int) (st : SubdirState)
    (fields : List (String × Json))
    (hres : t.result = 0)
    (hhttp : t.http_status = 200 ∨ t.http_status = 0)
    (hbz : ends_with st.m_repodata_url ".bz2" = false)
    (hw : fs.jsonWritable = true)
    (hstage : st.m_temp_file = some (Json.obj fields).dump)
    (hne : fields ≠ []) :
    resultFlag (finalize_transfer arch t fs now st) = some true ∧
    resultJson (finalize_transfer arch t fs now st)
      = some (Json.obj (header_fields st.m_repodata_url t.etag t.mod t.cache_control
          ++ fields)).dump ∧
    (resultState (finalize_transfer arch t fs now st)).map (·.m_json_cache_valid) = some true ∧
    (resultState (finalize_transfer arch t fs now st)).map (·.m_loaded) = some true := by
  have hsplice := dump_obj_splice
    (header_fields st.m_repodata_url t.etag t.mod t.cache_control) fields
    (by simp [header_fields]) hne
  rcases hhttp with h | h <;>
    simp [finalize_transfer, hres, h, hbz, hw, hstage, resultFlag, resultJson, resultState] <;>
    rw [← List.drop_one, hsplice]

/-- C1 witness: the spec example.  Headers U/E/M/C and staged payload
object with single field `pkg : 1` produce exactly the spec's expected
file bytes. -/
theorem C1_splice_witness :
    t200.result = 0 ∧ ends_with stPkg.m_repodata_url ".bz2" = false ∧
    fsW.jsonWritable = true ∧
    stPkg.m_temp_file = some (Json.obj [("pkg", Json.num 1)]).dump ∧
    resultFlag (finalize_transfer archAny t200 fsW 7 stPkg) = some true ∧
    resultJson (finalize_transfer archAny t200 fsW 7 stPkg)
      = some ("\x7b\"_url\":\"U\",\"_etag\":\"E\",\"_mod\":\"M\",\"_cache_control\":\"C\",\"pkg\":1\x7d".data) := by
  have h := C1_splice_correctness archAny t200 fsW 7 stPkg [("pkg", Json.num 1)]
    rfl (Or.inl rfl) rfl rfl rfl (by simp)
  exact ⟨rfl, rfl, rfl, rfl, h.1, by rw [h.2.1]; rfl⟩

/-- C1 counterexample: with the empty JSON object as staged payload
(contents `\x7b\x7d`, a JSON object), the status-200 finalize succeeds but
the written file ends in a comma directly followed by the closing brace
and does not parse as JSON at all — refuting the claim as stated for
"every staged payload file whose contents are a JSON object". -/
theorem C1_splice_counterexample :
    resultFlag (finalize_transfer archAny t200 fsW 7 stEmptyObj) = some true ∧
    resultJson (finalize_transfer archAny t200 fsW 7 stEmptyObj)
      = some ("\x7b\"_url\":\"U\",\"_etag\":\"E\",\"_mod\":\"M\",\"_cache_control\":\"C\",\x7d".data) ∧
    parseChars ((resultJson (finalize_transfer archAny t200 fsW 7 stEmptyObj)).getD []) = none :=
  ⟨rfl, rfl, rfl⟩

/-- C7.  Failed-transfer atomicity: a nonzero result code or an HTTP
status >= 400 makes `finalize_transfer` set `m_loaded := false`, return
failure, and change nothing else — the returned filesystem is exactly the
input one (no file written, removed, or re-timestamped) and no other state
member moves. -/
theorem C7_failed_transfer_atomicity
    (arch : ArchOracle) (t : DownloadTarget) (fs : FS) (now : Int) (st : SubdirState)
    (h : t.result ≠ 0 ∨ t.http_status ≥ 400) :
    finalize_transfer arch t fs now st = .ok ({ st with m_loaded := false }, fs, false) := by
  rw [finalize_transfer, if_pos h]

/-- C7 witness: a concrete failed transfer (result 1, status 500). -/
theorem C7_failed_transfer_witness :
    (tFail.result ≠ 0 ∨ tFail.http_status ≥ 400) ∧
    finalize_transfer archAny tFail fsW 3 baseState
      = .ok ({ baseState with m_loaded := false }, fsW, false) :=
  ⟨Or.inl (by decide), C7_failed_transfer_atomicity archAny tFail fsW 3 baseState
    (Or.inl (by decide))⟩

/-- C6.  Status-304 frame property: a finalize of a transfer with result
code 0 and HTTP status 304 returns success, leaves the json cache's
content bytes unchanged (only its mtime becomes `now`, when the file
exists), discards the staging file, and sets `m_json_cache_valid` and
`m_loaded` to true. -/
theorem C6_status304_frame
    (arch : ArchOracle) (t : DownloadTarget) (fs : FS) (now : Int) (st : SubdirState)
    (hres : t.result = 0) (hhttp : t.http_status = 304) :
    resultFlag (finalize_transfer arch t fs now st) = some true ∧
    resultJson (finalize_transfer arch t fs now st) = fs.json.map (·.content) ∧
    (resultFS (finalize_transfer arch t fs now st)).map (fun f => f.json.map (·.mtime))
      = some (fs.json.map fun _ => now) ∧
    (resultState (finalize_transfer arch t fs now st)).map (·.m_temp_file) = some none ∧
    (resultState (finalize_transfer arch t fs now st)).map (·.m_json_cache_valid) = some true ∧
    (resultState (finalize_transfer arch t fs now st)).map (·.m_loaded) = some true := by
  have hg : ¬(t.result ≠ 0 ∨ t.http_status ≥ 400) := by
    rw [hres, hhttp]; norm_num
  rw [finalize_transfer, if_neg hg, if_pos (Or.inr (Or.inr hhttp)), if_pos hhttp]
  by_cases hc : check_cache fs.solv now ≠ DURATION_MAX
      ∧ check_cache fs.solv now ≤ check_cache fs.json now <;>
    cases hj : fs.json <;>
      rw [hj] at hc <;>
        simp [resultFlag, resultJson, resultFS, resultState, touch, hj, hc]

/-- C6 witness: a concrete 304 finalize over an existing json cache
(mtime 5, touched to 9) and solv cache. -/
theorem C6_status304_witness :
    t304.result = 0 ∧ t304.http_status = 304 ∧
    resultFlag (finalize_transfer archAny t304 fs304 9 baseState) = some true ∧
    resultJson (finalize_transfer archAny t304 fs304 9 baseState)
      = fs304.json.map (·.content) ∧
    (resultFS (finalize_transfer archAny t304 fs304 9 baseState)).map
        (fun f => f.json.map (·.mtime)) = some (fs304.json.map fun _ => 9) ∧
    (resultState (finalize_transfer archAny t304 fs304 9 baseState)).map (·.m_temp_file)
      = some none := by
  have h := C6_status304_frame archAny t304 fs304 9 baseState rfl rfl
  exact ⟨rfl, rfl, h.1, h.2.1, h.2.2.1, h.2.2.2.1⟩

/-- C5.  Derived-cache validity invariant: whenever `m_solv_cache_valid`
turns from false to true — in `load()` or in a finalize (which only the
status-304 branch can do) — the solv cache's age at that moment (taken at
the function's `now`, over the pre-call filesystem) is finite and at most
the json cache's age. -/
theorem C5_solv_validity_invariant :
    (∀ ctx fs now st st' r, MSubdirData.load ctx fs now st = .ok (st', r) →
       st.m_solv_cache_valid = false → st'.m_solv_cache_valid = true →
       check_cache fs.solv now ≠ DURATION_MAX ∧
       check_cache fs.solv now ≤ check_cache fs.json now) ∧
    (∀ arch t fs now st out, finalize_transfer arch t fs now st = .ok out →
       st.m_solv_cache_valid = false → out.1.m_solv_cache_valid = true →
       check_cache fs.solv now ≠ DURATION_MAX ∧
       check_cache fs.solv now ≤ check_cache fs.json now) := by
  constructor
  · intro ctx fs now st st' r hload h0 h1
    simp only [MSubdirData.load] at hload
    split at hload
    · split at hload
      · split at hload
        · exact absurd hload (by simp)
        · split at hload
          · split at hload
            · rename_i hcond
              simp only [Except.ok.injEq, Prod.mk.injEq] at hload
              obtain ⟨hst, -⟩ := hload
              subst hst
              exact hcond
            · exfalso
              simp only [Except.ok.injEq, Prod.mk.injEq] at hload
              obtain ⟨hst, -⟩ := hload
              subst hst
              simp at h1
              exact absurd h1 (by simp [h0])
          · exfalso
            simp only [Except.ok.injEq, Prod.mk.injEq] at hload
            obtain ⟨hst, -⟩ := hload
            subst hst
            simp [create_target] at h1
            exact absurd h1 (by simp [h0])
      · exfalso
        simp only [Except.ok.injEq, Prod.mk.injEq] at hload
        obtain ⟨hst, -⟩ := hload
        subst hst
        simp [create_target] at h1
        exact absurd h1 (by simp [h0])
    · split at hload <;>
      · exfalso
        simp only [Except.ok.injEq, Prod.mk.injEq] at hload
        obtain ⟨hst, -⟩ := hload
        subst hst
        first
          | (simp [create_target] at h1; exact absurd h1 (by simp [h0]))
          | exact absurd h1 (by simp [h0])
  · intro arch t fs now st out hfin h0 h1
    simp only [finalize_transfer] at hfin
    split at hfin
    · simp only [Except.ok.injEq] at hfin
      subst hfin
      simp at h1
      exact absurd h1 (by simp [h0])
    · split at hfin
      · split at hfin
        · -- status 304
          split at hfin
          · rename_i hcond
            simp only [Except.ok.injEq] at hfin
            subst hfin
            exact hcond
          · exfalso
            simp only [Except.ok.injEq] at hfin
            subst hfin
            simp at h1
            exact absurd h1 (by simp [h0])
        · -- status 200 / 0
          split at hfin
          · exact absurd hfin (by simp)
          · split at hfin
            · exact absurd hfin (by simp)
            · rename_i hd
              split at hfin
              · exact absurd hfin (by simp)
              · rename_i staged hstaged
                simp only [Except.ok.injEq] at hfin
                subst hfin
                exfalso
                simp at h1
                -- the state reached here preserves m_solv_cache_valid
                rename_i st3out
                revert hd hstaged h1
                split
                · intro hd hstaged h1
                  have hp := decompress_preserves _ _ _ _ hd
                  simp at hp
                  exact absurd h1 (by simp [hp.1, h0])
                · intro hd hstaged h1
                  simp only [Except.ok.injEq, Prod.mk.injEq] at hd
                  obtain ⟨-, hst⟩ := hd
                  subst hst
                  exact absurd h1 (by simp [h0])
      · exact absurd hfin (by simp)

/-- C5 witness: a concrete `load` that newly validates the solv cache
(both files at mtime 0, `now = 0`, TTL 5), together with the invariant's
conclusion at that moment. -/
theorem C5_solv_validity_witness :
    MSubdirData.load ctx5 fsBoth 0 baseState = .ok (stAccepted, true) ∧
    baseState.m_solv_cache_valid = false ∧ stAccepted.m_solv_cache_valid = true ∧
    (check_cache fsBoth.solv 0 ≠ DURATION_MAX ∧
     check_cache fsBoth.solv 0 ≤ check_cache fsBoth.json 0) :=
  ⟨rfl, rfl, rfl,
    C5_solv_validity_invariant.1 ctx5 fsBoth 0 baseState stAccepted true rfl rfl rfl⟩

/-- C2.  Fresh-cache acceptance: when the json cache file has a readable
(finite) age, the URL is not `file://`, the extracted header metadata is
non-empty, the `max_age` computation succeeds, and `max_age` exceeds the
cache age in seconds or offline mode holds, `load()` accepts the cache:
it returns success with `m_loaded` and `m_json_cache_valid` set, and arms
no refresh — neither a transfer target nor a staging file is created. -/
theorem C2_fresh_cache_acceptance
    (ctx : Context) (fs : FS) (now : Int) (st : SubdirState) (ma : Int)
    (hage : check_cache fs.json now ≠ DURATION_MAX)
    (hurl : starts_with st.m_repodata_url "file://" = false)
    (hmeta : (read_mod_and_etag (fileContent fs.json)).jsize ≠ 0)
    (hmax : compute_max_age ctx (read_mod_and_etag (fileContent fs.json)) = .ok ma)
    (hcond : ma > duration_seconds (check_cache fs.json now) ∨ ctx.offline = true) :
    ∃ st', MSubdirData.load ctx fs now st = .ok (st', true) ∧
      st'.m_loaded = true ∧ st'.m_json_cache_valid = true ∧
      st'.m_armed = st.m_armed ∧ st'.m_temp_file = st.m_temp_file := by
  rw [MSubdirData.load, if_pos ⟨hage, hurl⟩, if_pos hmeta, hmax]
  dsimp only
  rw [if_pos hcond]
  by_cases hs : check_cache fs.solv now ≠ DURATION_MAX
      ∧ check_cache fs.solv now ≤ check_cache fs.json now
  · rw [if_pos hs]
    exact ⟨_, rfl, rfl, rfl, rfl, rfl⟩
  · rw [if_neg hs]
    exact ⟨_, rfl, rfl, rfl, rfl, rfl⟩

/-- C2 witness: the concrete accepting `load` of `C5_solv_validity_witness`
discharges every hypothesis (TTL 5 > age 0 seconds, online). -/
theorem C2_fresh_cache_witness :
    check_cache fsBoth.json 0 ≠ DURATION_MAX ∧
    starts_with baseState.m_repodata_url "file://" = false ∧
    (read_mod_and_etag (fileContent fsBoth.json)).jsize ≠ 0 ∧
    compute_max_age ctx5 (read_mod_and_etag (fileContent fsBoth.json)) = .ok 5 ∧
    ((5 : Int) > duration_seconds (check_cache fsBoth.json 0) ∨ ctx5.offline = true) ∧
    MSubdirData.load ctx5 fsBoth 0 baseState = .ok (stAccepted, true) ∧
    stAccepted.m_loaded = true ∧ stAccepted.m_json_cache_valid = true ∧
    stAccepted.m_armed = baseState.m_armed ∧
    stAccepted.m_temp_file = baseState.m_temp_file := by
  obtain ⟨st', hload, h1, h2, h3, h4⟩ := C2_fresh_cache_acceptance ctx5 fsBoth 0 baseState 5
    (by decide) rfl (by decide) rfl (Or.inl (by decide))
  have he : (Except.ok (st', true) : Except Unit (SubdirState × Bool))
      = .ok (stAccepted, true) := hload.symm.trans rfl
  injection he with hp
  injection hp with hst hflag
  subst hst
  exact ⟨by decide, rfl, by decide, rfl, Or.inl (by decide), hload, h1, h2, h3, h4⟩

/-- C3 (amended).  `maxAgeSeconds`: a TTL above 1 is used verbatim; a TTL
of 0 or below yields 0; with TTL 1 the header is scanned for the leftmost
`max-age=(\d+)` match (`matchAt` is the declarative match predicate): no
match yields 0, and a match yields the greedy digit capture's value when
it fits in `int` — when it exceeds `INT_MAX`, `std::stoi` throws
`std::out_of_range` instead of producing a value (the amendment the
overflow counterexample forces).  The spec's four concrete vectors close the
statement. -/
theorem C3_max_age
    (t : Int) (hdr : String) (i : Nat)
    (hm : matchAt hdr.data i = true) (hfirst : ∀ j, j < i → matchAt hdr.data j = false) :
    (1 < t → maxAgeSeconds t hdr = .ok t) ∧
    (t ≤ 0 → maxAgeSeconds t hdr = .ok 0) ∧
    (∀ g : String, (∀ k, matchAt g.data k = false) → maxAgeSeconds 1 g = .ok 0) ∧
    ((digitsToNat ((hdr.data.drop (i + 8)).takeWhile Char.isDigit) : Int) ≤ INT_MAX →
      maxAgeSeconds 1 hdr
        = .ok (digitsToNat ((hdr.data.drop (i + 8)).takeWhile Char.isDigit))) ∧
    ((digitsToNat ((hdr.data.drop (i + 8)).takeWhile Char.isDigit) : Int) > INT_MAX →
      maxAgeSeconds 1 hdr = .error ()) ∧
    maxAgeSeconds 5 "no-cache" = .ok 5 ∧
    maxAgeSeconds 1 "public, max-age=1200" = .ok 1200 ∧
    maxAgeSeconds 1 "no-cache" = .ok 0 ∧
    maxAgeSeconds 0 "public, max-age=1200" = .ok 0 := by
  have hfind := findMaxAgeDigits_first hdr.data i hm hfirst
  refine ⟨?_, ?_, ?_, ?_, ?_, rfl, rfl, rfl, rfl⟩
  · intro ht
    rw [maxAgeSeconds, if_pos ht]
  · intro ht
    rw [maxAgeSeconds, if_neg (by omega), if_neg (by omega)]
  · intro g hg
    rw [maxAgeSeconds, if_neg (by omega), if_pos rfl, get_cache_control_max_age,
      findMaxAgeDigits_none g.data hg]
  · intro hle
    rw [maxAgeSeconds, if_neg (by omega), if_pos rfl, get_cache_control_max_age, hfind]
    dsimp only
    rw [if_pos hle]
  · intro hgt
    rw [maxAgeSeconds, if_neg (by omega), if_pos rfl, get_cache_control_max_age, hfind]
    dsimp only
    rw [if_neg (by omega)]

/-- C3 counterexample: with TTL 1 and header `max-age=9999999999` the
captured integer (9999999999) exceeds `INT_MAX`, so
`get_cache_control_max_age` neither returns the captured value nor 0 —
`std::stoi` throws `std::out_of_range` (modelled as `Except.error`),
refuting "it equals the integer captured ... and 0 when ... parsing
fails". -/
theorem C3_max_age_counterexample :
    maxAgeSeconds 1 "max-age=9999999999" = .error () ∧
    maxAgeSeconds 1 "max-age=9999999999" ≠ .ok 9999999999 ∧
    maxAgeSeconds 1 "max-age=9999999999" ≠ .ok 0 := by
  refine ⟨rfl, ?_, ?_⟩ <;>
    · rw [show maxAgeSeconds 1 "max-age=9999999999" = Except.error () from rfl]
      exact fun hh => Except.noConfusion hh

/-- C3 witness: the theorem applied to the header
`"public, max-age=1200"`, whose leftmost match is at offset 8 with
capture 1200 (within `INT_MAX`), and all four spec vectors. -/
theorem C3_max_age_witness :
    matchAt "public, max-age=1200".data 8 = true ∧
    (digitsToNat (("public, max-age=1200".data.drop 16).takeWhile Char.isDigit) : Int)
      ≤ INT_MAX ∧
    maxAgeSeconds 1 "public, max-age=1200" = .ok 1200 ∧
    maxAgeSeconds 5 "no-cache" = .ok 5 ∧
    maxAgeSeconds 1 "no-cache" = .ok 0 ∧
    maxAgeSeconds 0 "public, max-age=1200" = .ok 0 := by
  have h := C3_max_age 5 "public, max-age=1200" 8 (by decide)
    (fun j hj => by revert j hj; decide)
  refine ⟨by decide, by decide, ?_, h.2.2.2.2.2.1, h.2.2.2.2.2.2.2.1, h.2.2.2.2.2.2.2.2⟩
  have h4 := h.2.2.2.1 (by decide)
  rw [h4]
  rfl

/-- C4.  ByteScanner: (1) on the synthetic four-header document the
extraction recovers exactly the four metadata fields no matter what bytes
follow the 16th unescaped quote — any payload, any size, any nesting;
(2) when end of stream is reached before 16 unescaped quotes the scan
yields the empty string and the routine returns the empty json;
(3) whenever the synthetic document fails to parse the routine returns
the empty json. -/
theorem C4_byte_scanner :
    (∀ rest, read_mod_and_etag (synthHead ++ rest) = synthHdr) ∧
    (∀ s, scanQuotes s false 0 < 16 →
       extractSubjson s false 0 [] = [] ∧ read_mod_and_etag s = Json.null) ∧
    (∀ s, parseChars (extractSubjson s false 0 []) = none →
       read_mod_and_etag s = Json.null) := by
  refine ⟨fun rest => rfl, fun s hs => ?_, fun s hp => ?_⟩
  · have he := extract_eq_nil s false 0 [] hs
    refine ⟨he, ?_⟩
    rw [read_mod_and_etag, he]
    rfl
  · rw [read_mod_and_etag, hp]

/-- C4 witness: `"abc"` ends before any quote, so extraction is empty and
the result is the empty json; sixteen bare quotes reach the quote budget
but the synthetic document fails to parse, also yielding the empty json;
and the synthetic document itself extracts to the four header fields. -/
theorem C4_byte_scanner_witness :
    read_mod_and_etag (synthHead ++ synthTail) = synthHdr ∧
    scanQuotes "abc".data false 0 < 16 ∧
    extractSubjson "abc".data false 0 [] = [] ∧
    read_mod_and_etag "abc".data = Json.null ∧
    parseChars (extractSubjson quotes16 false 0 []) = none ∧
    read_mod_and_etag quotes16 = Json.null := by
  refine ⟨C4_byte_scanner.1 synthTail, by decide,
    (C4_byte_scanner.2.1 _ (by decide)).1, (C4_byte_scanner.2.1 _ (by decide)).2,
    rfl, C4_byte_scanner.2.2 _ rfl⟩

/-- C8 (amended).  Corrupt-bz2 tolerance: a status-200 finalize with a
`.bz2` URL whose staged payload the archive library rejects at open or at
header-read time (`decompress::raw` returns false) still succeeds:
the failure is only logged, the splice proceeds with the staging contents
of that moment (the swapped-in empty output), and a finalized json cache
file is written (the serialized header with its trailing brace replaced by
a comma).  (Amendment: the original claim covered every corrupt stream;
corruption surfacing as a negative block read instead raises a
`runtime_error`, settled separately.) -/
theorem C8_corrupt_bz2
    (arch : ArchOracle) (t : DownloadTarget) (fs : FS) (now : Int) (st : SubdirState)
    (staged : List Char)
    (hres : t.result = 0) (hhttp : t.http_status = 200)
    (hbz : ends_with st.m_repodata_url ".bz2" = true)
    (hw : fs.jsonWritable = true)
    (hstage : st.m_temp_file = some staged)
    (hfail : arch staged = .openFail ∨ arch staged = .headerFail) :
    resultFlag (finalize_transfer arch t fs now st) = some true ∧
    resultJson (finalize_transfer arch t fs now st)
      = some ((Json.obj (header_fields st.m_repodata_url t.etag t.mod
          t.cache_control)).dump.dropLast ++ [',']) ∧
    (resultState (finalize_transfer arch t fs now st)).map (·.m_loaded) = some true ∧
    (resultState (finalize_transfer arch t fs now st)).map (·.m_json_cache_valid)
      = some true := by
  rcases hfail with hf | hf <;>
    simp [finalize_transfer, MSubdirData.decompress, decompress_raw, hres, hhttp, hbz, hw,
      hstage, hf, resultFlag, resultJson, resultState]

/-- C8 counterexample: the same status-200 `.bz2` finalize, when the
corrupt payload triggers a negative `archive_read_data` result, propagates
`decompress::raw`'s `runtime_error` — no file is finalized and no success
is returned, refuting the claim for that class of corrupt streams. -/
theorem C8_corrupt_bz2_counterexample :
    finalize_transfer archReadErr t200 fsW 7 stBz = .error .archive_read_error := rfl

/-- C8 witness: a concrete one-byte corrupt payload the library cannot
open; the finalize still returns success and writes the header-prefix
file. -/
theorem C8_corrupt_bz2_witness :
    t200.result = 0 ∧ t200.http_status = 200 ∧
    ends_with stBz.m_repodata_url ".bz2" = true ∧ fsW.jsonWritable = true ∧
    stBz.m_temp_file = some ['x'] ∧ archOpenFail ['x'] = .openFail ∧
    resultFlag (finalize_transfer archOpenFail t200 fsW 7 stBz) = some true ∧
    resultJson (finalize_transfer archOpenFail t200 fsW 7 stBz)
      = some ((Json.obj (header_fields "U.bz2" "E" "M" "C")).dump.dropLast ++ [',']) := by
  have h := C8_corrupt_bz2 archOpenFail t200 fsW 7 stBz ['x'] rfl rfl rfl rfl rfl (Or.inl rfl)
  exact ⟨rfl, rfl, rfl, rfl, rfl, rfl, h.1, h.2.1⟩

/-- C9.  `clear_cache()` removes both cache files but leaves every data
member — in particular the `m_loaded`, `m_json_cache_valid` and
`m_solv_cache_valid` flags — untouched; consequently `cache_path()` still
returns the path of the now-removed derived (or json) cache file instead
of failing with the "cache not loaded" error. -/
theorem C9_clear_cache_keeps_flags (st : SubdirState) (fs : FS) :
    (MSubdirData.clear_cache st fs).1 = st ∧
    (MSubdirData.clear_cache st fs).2.json = none ∧
    (MSubdirData.clear_cache st fs).2.solv = none ∧
    (st.m_json_cache_valid = true → st.m_solv_cache_valid = true →
      MSubdirData.cache_path (MSubdirData.clear_cache st fs).1 = .ok st.m_solv_fn) ∧
    (st.m_json_cache_valid = true → st.m_solv_cache_valid = false →
      MSubdirData.cache_path (MSubdirData.clear_cache st fs).1 = .ok st.m_json_fn) := by
  refine ⟨rfl, rfl, rfl, fun h1 h2 => ?_, fun h1 h2 => ?_⟩
  · rw [show (MSubdirData.clear_cache st fs).1 = st from rfl, MSubdirData.cache_path,
      if_pos ⟨h1, h2⟩]
  · rw [show (MSubdirData.clear_cache st fs).1 = st from rfl, MSubdirData.cache_path,
      if_neg (by simp [h2]), if_pos h1]

/-- C9 witness: after the accepting `load` of `C2_fresh_cache_witness`
(both validity flags set), `clear_cache` removes both files yet
`cache_path` still returns the solv path. -/
theorem C9_clear_cache_witness :
    stAccepted.m_json_cache_valid = true ∧ stAccepted.m_solv_cache_valid = true ∧
    (MSubdirData.clear_cache stAccepted fsBoth).2.json = none ∧
    (MSubdirData.clear_cache stAccepted fsBoth).2.solv = none ∧
    MSubdirData.cache_path (MSubdirData.clear_cache stAccepted fsBoth).1
      = .ok stAccepted.m_solv_fn :=
  ⟨rfl, rfl, (C9_clear_cache_keeps_flags stAccepted fsBoth).2.1,
    (C9_clear_cache_keeps_flags stAccepted fsBoth).2.2.1,
    (C9_clear_cache_keeps_flags stAccepted fsBoth).2.2.2.1 rfl rfl⟩

/-- C10.  `decompress()` swaps the staging file with the freshly created
output file in every non-throwing outcome — also when decompression fails
because the archive cannot be opened or its header cannot be read.  On
such failures the new staging contents are the empty output file (the raw
downloaded bytes are gone), and the subsequent splice therefore uses the
new file. -/
theorem C10_decompress_swaps
    (arch : ArchOracle) (st : SubdirState) (staged : List Char)
    (hstage : st.m_temp_file = some staged) :
    (arch staged = .openFail ∨ arch staged = .headerFail →
      MSubdirData.decompress arch st = .ok (false, { st with m_temp_file := some [] })) ∧
    (∀ out, arch staged = .decoded out →
      MSubdirData.decompress arch st = .ok (true, { st with m_temp_file := some out })) := by
  constructor
  · intro hf
    rcases hf with hf | hf <;>
      simp [MSubdirData.decompress, decompress_raw, hstage, hf]
  · intro out hf
    simp [MSubdirData.decompress, decompress_raw, hstage, hf]

/-- C10 witness: the concrete cannot-open decompression of
`C8_corrupt_bz2_witness`'s staging byte: the swap happens anyway, the
staged byte is replaced by the empty output. -/
theorem C10_decompress_witness :
    stBz.m_temp_file = some ['x'] ∧ archOpenFail ['x'] = .openFail ∧
    MSubdirData.decompress archOpenFail stBz
      = .ok (false, { stBz with m_temp_file := some [] }) ∧
    (some ([] : List Char) ≠ some ['x']) := by
  refine ⟨rfl, rfl, (C10_decompress_swaps archOpenFail stBz ['x'] rfl).1 (Or.inl rfl), by simp⟩

end Mamba
